import Mathlib

/-!
Shallow embedding of the cf-metrics-collector program (src/main.go), a small
Cloudflare-to-Prometheus metrics proxy, together with theorems settling the
specification claims about it.

Modelling conventions:
* Go float64 metric values are carried through the program unchanged (no
  arithmetic is ever performed on them: the code only copies a parsed JSON
  number into a gauge), so they are modelled by an exact numeric type, Int.
* json.Number is a string type in Go; its String() method returns the
  underlying string (empty when the JSON field was absent).  The field
  edgeResponseStatus is therefore modelled as a String directly.
* HTTP transport and JSON unmarshalling are modelled as an environment that
  yields, per call, either a transport error, a parse error, or a parsed
  value of the expected shape.
* time.Now() is modelled as a day count since the Unix epoch; AddDate(0,0,-7)
  is subtraction of 7 days and Format with layout 2006-01-02 is rendering the
  civil date as a zero-padded YYYY-MM-DD string (civilFromDays implements the
  standard Gregorian days-to-civil conversion).
* The Prometheus GaugeVec collaborator: WithLabelValues(...).Set(v) stores v
  at the given label tuple, replacing any previous value (documented Set
  semantics of the collaborator library, spec section 4.4).  A gauge family
  is modelled as a partial map from label tuples to values and setGauge as
  pointwise update.
* The Go for-range loop at line 190 of main.go indexes Zones[0] before
  iterating; when the parsed zones list is empty this is an out-of-bounds
  panic, modelled as the Option value none.
-/

set_option autoImplicit false

namespace CFMetrics

/-- A monitored zone: main.go type Zone with fields Tag and ID. -/
structure Zone where
  tag : String
  id : String
  deriving DecidableEq, Repr

/-- One entry of the zone-listing response result array: fields id, name,
status (main.go lines 100-104).  The response also carries result_info and
success fields, which are parsed but never read by the program, so they are
not modelled. -/
structure ZoneListEntry where
  id : String
  name : String
  status : String
  deriving DecidableEq, Repr

/-- The package-level mutable state relevant to the claims: the zones
registry (main.go line 28). -/
structure AppState where
  zones : List Zone
  deriving DecidableEq, Repr

/-- Outcome of the zone-listing HTTP call plus unmarshalling, as seen by
assignAllZones: the transport can fail (http.DefaultClient.Do returns err),
the body can fail to unmarshal, or a result array of the expected shape is
obtained. -/
inductive ListOutcome where
  | transportError (msg : String)
  | parseError
  | ok (result : List ZoneListEntry)
  deriving DecidableEq, Repr

/-- The filtering loop of assignAllZones (main.go lines 115-124): iterate the
result array, appending a Zone with Tag := name and ID := id whenever the
status field equals the literal string active. -/
def zonesCopyOf (result : List ZoneListEntry) : List Zone :=
  result.foldl
    (fun acc zone =>
      if zone.status = "active" then acc ++ [Zone.mk zone.name zone.id] else acc)
    []

/-- assignAllZones (main.go lines 86-135).  Returns the error on transport
failure; returns the error when unmarshalling fails or the result array is
empty (a single combined check in the source, line 112); filters to active
zones; errors when no active zone remains; otherwise replaces the registry
wholesale with the filtered list. -/
def assignAllZones (outcome : ListOutcome) (st : AppState) : Except String AppState :=
  match outcome with
  | ListOutcome.transportError msg => Except.error msg
  | ListOutcome.parseError => Except.error "failed to get all zones"
  | ListOutcome.ok result =>
    if result.length = 0 then Except.error "failed to get all zones"
    else if (zonesCopyOf result).length = 0 then Except.error "no active zones found"
    else Except.ok { st with zones := zonesCopyOf result }

/-- The registry after a call to assignAllZones: the package-level zones
variable is written only on the success path (main.go lines 130-132); on any
error path the caller (main, line 215-219) returns and the registry keeps its
previous contents. -/
def registryAfter (outcome : ListOutcome) (st : AppState) : AppState :=
  match assignAllZones outcome st with
  | Except.ok st2 => st2
  | Except.error _ => st

/-- Whether a discovery attempt succeeded. -/
def discoverySucceeds (r : Except String AppState) : Bool :=
  match r with
  | Except.ok _ => true
  | Except.error _ => false

/-- The Bool test the source applies to each zone-listing entry. -/
def isActive (z : ZoneListEntry) : Bool :=
  z.status == "active"

theorem zonesCopyOf_aux (result : List ZoneListEntry) (acc : List Zone) :
    result.foldl
      (fun acc zone =>
        if zone.status = "active" then acc ++ [Zone.mk zone.name zone.id] else acc)
      acc
    = acc ++ (result.filter isActive).map (fun z => Zone.mk z.name z.id) := by
  induction result generalizing acc with
  | nil => simp
  | cons z rest ih =>
    by_cases h : z.status = "active"
    · simp [List.foldl_cons, h, ih, isActive, List.filter_cons]
    · simp [List.foldl_cons, h, ih, isActive, List.filter_cons]

theorem zonesCopyOf_eq (result : List ZoneListEntry) :
    zonesCopyOf result = (result.filter isActive).map (fun z => Zone.mk z.name z.id) := by
  simpa using zonesCopyOf_aux result []

/-- One entry of responseStatusMap (main.go lines 169-172): the status code
as the raw string held by json.Number (empty when absent), and its request
count. -/
structure StatusMapEntry where
  edgeResponseStatus : String
  requests : Int
  deriving DecidableEq, Repr

/-- The sum object of one daily group (main.go lines 166-173). -/
structure GroupSum where
  requests : Int
  cachedRequests : Int
  responseStatusMap : List StatusMapEntry
  deriving DecidableEq, Repr

/-- The dimensions object of one daily group (main.go lines 174-176). -/
structure Dimensions where
  date : String
  deriving DecidableEq, Repr

/-- One daily group of the GraphQL response (main.go lines 165-177). -/
structure HttpGroup where
  sum : GroupSum
  dimensions : Dimensions
  deriving DecidableEq, Repr

/-- One zone object of the GraphQL response (main.go lines 164-178). -/
structure ViewerZone where
  httpRequests1dGroups : List HttpGroup
  deriving DecidableEq, Repr

/-- The parsed GraphQL response envelope data.viewer.zones
(main.go lines 161-181). -/
structure StatsResult where
  zones : List ViewerZone
  deriving DecidableEq, Repr

/-- A Prometheus gauge family, modelled as a partial map from label tuples to
the most recently written value. -/
abbrev GaugeTable (κ : Type) : Type := κ → Option Int

/-- GaugeVec.WithLabelValues(labels...).Set(v): store v at the label tuple,
replacing any previous value for that tuple (documented overwrite semantics
of the collaborator metrics library). -/
def setGauge {κ : Type} [DecidableEq κ] (g : GaugeTable κ) (k : κ) (v : Int) :
    GaugeTable κ :=
  fun k2 => if k2 = k then some v else g k2

/-- The three gauge families of main.go lines 32-54: reqMetric and
cachedMetric labelled by (zone_tag, date), byStatusMetric labelled by
(zone_tag, date, status_code). -/
structure Sink where
  reqMetric : GaugeTable (String × String)
  cachedMetric : GaugeTable (String × String)
  byStatusMetric : GaugeTable (String × String × String)

/-- A sink with no values written yet. -/
def emptySink : Sink :=
  { reqMetric := (fun _ => none),
    cachedMetric := (fun _ => none),
    byStatusMetric := (fun _ => none) }

/-- The inner status loop body (main.go lines 193-198): write the status
entry to byStatusMetric unless its status-code string is empty. -/
def writeStatus (tag date : String) (s : Sink) (st : StatusMapEntry) : Sink :=
  if st.edgeResponseStatus ≠ "" then
    { s with byStatusMetric := setGauge s.byStatusMetric (tag, date, st.edgeResponseStatus) st.requests }
  else s

/-- The body of the per-group loop (main.go lines 190-199): set reqMetric and
cachedMetric for (tag, date), then run the status loop. -/
def writeGroup (tag : String) (s : Sink) (g : HttpGroup) : Sink :=
  let s1 := { s with reqMetric := setGauge s.reqMetric (tag, g.dimensions.date) g.sum.requests }
  let s2 := { s1 with cachedMetric := setGauge s1.cachedMetric (tag, g.dimensions.date) g.sum.cachedRequests }
  g.sum.responseStatusMap.foldl (writeStatus tag g.dimensions.date) s2

/-- The full metrics-writing loop of fetchZoneStats over the groups of the
first zone of the response. -/
def processGroups (tag : String) (groups : List HttpGroup) (s : Sink) : Sink :=
  groups.foldl (writeGroup tag) s

/-- The metrics-writing phase of fetchZoneStats (main.go line 190): the source
indexes result.Data.Viewer.Zones[0] with no bounds check, so an empty zones
list is an index-out-of-range panic, modelled as none. -/
def processResult (zone : Zone) (r : StatsResult) (s : Sink) : Option Sink :=
  match r.zones with
  | [] => none
  | z0 :: _ => some (processGroups zone.tag z0.httpRequests1dGroups s)

/-- Outcome of the GraphQL HTTP call plus unmarshalling for one zone, as seen
by fetchZoneStats (main.go lines 153-188). -/
inductive FetchOutcome where
  | transportError (msg : String)
  | parseError (msg : String)
  | ok (result : StatsResult)
  deriving DecidableEq, Repr

/-- fetchZoneStats (main.go lines 137-200) acting on the sink: on a transport
error or a parse error the function logs and returns with the sink untouched;
otherwise it runs the metrics-writing loop (which panics when the parsed
zones list is empty). -/
def fetchZoneStatsSink (outcome : Zone → FetchOutcome) (zone : Zone) (s : Sink) :
    Option Sink :=
  match outcome zone with
  | FetchOutcome.transportError _ => some s
  | FetchOutcome.parseError _ => some s
  | FetchOutcome.ok r => processResult zone r s

/-- One pass of the poll loop (main.go lines 222-227): call fetchZoneStats on
each registered zone in registry order; a panic anywhere aborts the pass (and
the process). -/
def pollPass (outcome : Zone → FetchOutcome) : List Zone → Sink → Option Sink
  | [], s => some s
  | z :: rest, s =>
    match fetchZoneStatsSink outcome z s with
    | none => none
    | some s2 => pollPass outcome rest s2

/-- One gauge write performed by the metrics-writing loop, in the order the
source performs them: a reqMetric write, a cachedMetric write, or a
byStatusMetric write, each carrying its label tuple and value. -/
inductive WriteEvent where
  | reqWrite (tag date : String) (v : Int)
  | cachedWrite (tag date : String) (v : Int)
  | statusWrite (tag date code : String) (v : Int)
  deriving DecidableEq, Repr

/-- Apply one write event to the sink. -/
def applyEvent (s : Sink) : WriteEvent → Sink
  | WriteEvent.reqWrite t d v => { s with reqMetric := setGauge s.reqMetric (t, d) v }
  | WriteEvent.cachedWrite t d v => { s with cachedMetric := setGauge s.cachedMetric (t, d) v }
  | WriteEvent.statusWrite t d c v => { s with byStatusMetric := setGauge s.byStatusMetric (t, d, c) v }

/-- Apply a list of write events left to right. -/
def applyEvents (s : Sink) (es : List WriteEvent) : Sink :=
  es.foldl applyEvent s

/-- The status writes the inner loop performs for one group, in loop order:
one byStatusMetric write per entry whose status-code string is non-empty. -/
def statusEvents (tag date : String) (l : List StatusMapEntry) : List WriteEvent :=
  l.filterMap (fun st =>
    if st.edgeResponseStatus ≠ "" then
      some (WriteEvent.statusWrite tag date st.edgeResponseStatus st.requests)
    else none)

/-- The writes the loop body performs for one group, in source order: the
reqMetric write, the cachedMetric write, then the status writes. -/
def groupEvents (tag : String) (g : HttpGroup) : List WriteEvent :=
  WriteEvent.reqWrite tag g.dimensions.date g.sum.requests ::
    WriteEvent.cachedWrite tag g.dimensions.date g.sum.cachedRequests ::
      statusEvents tag g.dimensions.date g.sum.responseStatusMap

/-- All writes fetchZoneStats performs for a list of groups, in order. -/
def zoneEvents (tag : String) (groups : List HttpGroup) : List WriteEvent :=
  groups.flatMap (groupEvents tag)

/-- The reqMetric writes of an event list, as (tag, date, value) triples in
order. -/
def reqWritesOf : List WriteEvent → List (String × String × Int)
  | [] => []
  | WriteEvent.reqWrite t d v :: es => (t, d, v) :: reqWritesOf es
  | WriteEvent.cachedWrite _ _ _ :: es => reqWritesOf es
  | WriteEvent.statusWrite _ _ _ _ :: es => reqWritesOf es

/-- The cachedMetric writes of an event list, as (tag, date, value) triples
in order. -/
def cachedWritesOf : List WriteEvent → List (String × String × Int)
  | [] => []
  | WriteEvent.reqWrite _ _ _ :: es => cachedWritesOf es
  | WriteEvent.cachedWrite t d v :: es => (t, d, v) :: cachedWritesOf es
  | WriteEvent.statusWrite _ _ _ _ :: es => cachedWritesOf es

/-- The byStatusMetric writes of an event list, as (tag, date, code, value)
tuples in order. -/
def statusWritesOf : List WriteEvent → List (String × String × String × Int)
  | [] => []
  | WriteEvent.reqWrite _ _ _ :: es => statusWritesOf es
  | WriteEvent.cachedWrite _ _ _ :: es => statusWritesOf es
  | WriteEvent.statusWrite t d c v :: es => (t, d, c, v) :: statusWritesOf es

/-- Whether an event is a byStatusMetric write whose status-code label is the
empty string. -/
def isEmptyStatusWrite : WriteEvent → Bool
  | WriteEvent.statusWrite _ _ c _ => c == ""
  | _ => false

theorem applyEvents_append (s : Sink) (a b : List WriteEvent) :
    applyEvents s (a ++ b) = applyEvents (applyEvents s a) b := by
  simp [applyEvents, List.foldl_append]

theorem statusFold_eq (tag date : String) (l : List StatusMapEntry) (s : Sink) :
    l.foldl (writeStatus tag date) s = applyEvents s (statusEvents tag date l) := by
  induction l generalizing s with
  | nil => rfl
  | cons st rest ih =>
    by_cases h : st.edgeResponseStatus = ""
    · simp [List.foldl_cons, statusEvents, writeStatus, h, List.filterMap_cons, ih, applyEvents]
    · simp only [List.foldl_cons, statusEvents, writeStatus, h, List.filterMap_cons, if_pos,
        ne_eq, not_false_iff, if_neg, ih]
      simp [applyEvents, statusEvents, applyEvent]

theorem writeGroup_eq (tag : String) (g : HttpGroup) (s : Sink) :
    writeGroup tag s g = applyEvents s (groupEvents tag g) := by
  simp [writeGroup, groupEvents, applyEvents, List.foldl_cons, applyEvent, statusFold_eq,
    statusEvents]

theorem processGroups_eq (tag : String) (groups : List HttpGroup) (s : Sink) :
    processGroups tag groups s = applyEvents s (zoneEvents tag groups) := by
  induction groups generalizing s with
  | nil => rfl
  | cons g rest ih =>
    simp [processGroups, List.foldl_cons, zoneEvents, List.flatMap_cons, applyEvents_append]
    rw [← writeGroup_eq]
    exact ih (writeGroup tag s g)

/-- A Gregorian calendar date. -/
structure CivilDate where
  year : Int
  month : Int
  day : Int
  deriving DecidableEq, Repr

/-- Convert a count of days since the Unix epoch (1970-01-01) to a civil
date, by the standard Gregorian conversion (floor divisions throughout).
This models the calendar part of the Go time package for whole-day
arithmetic. -/
def civilFromDays (z0 : Int) : CivilDate :=
  let z := z0 + 719468
  let era := Int.fdiv z 146097
  let doe := z - era * 146097
  let yoe := Int.fdiv (doe - Int.fdiv doe 1460 + Int.fdiv doe 36524 - Int.fdiv doe 146096) 365
  let y := yoe + era * 400
  let doy := doe - (365 * yoe + Int.fdiv yoe 4 - Int.fdiv yoe 100)
  let mp := Int.fdiv (5 * doy + 2) 153
  let d := doy - Int.fdiv (153 * mp + 2) 5 + 1
  let m := mp + (if mp < 10 then 3 else -9)
  { year := y + (if m ≤ 2 then 1 else 0), month := m, day := d }

/-- Zero-pad a number to two digits, as the Go layout fields 01 and 02 do. -/
def pad2 (n : Int) : String :=
  if 0 ≤ n ∧ n < 10 then "0" ++ toString n else toString n

/-- Zero-pad a year to four digits, as the Go layout field 2006 does. -/
def pad4 (n : Int) : String :=
  if 0 ≤ n ∧ n < 10 then "000" ++ toString n
  else if 0 ≤ n ∧ n < 100 then "00" ++ toString n
  else if 0 ≤ n ∧ n < 1000 then "0" ++ toString n
  else toString n

/-- Render a civil date with the Go layout 2006-01-02, i.e. YYYY-MM-DD. -/
def formatDate (d : CivilDate) : String :=
  pad4 d.year ++ "-" ++ pad2 d.month ++ "-" ++ pad2 d.day

/-- The date string fetchZoneStats computes (main.go line 144):
time.Now().AddDate(0, 0, -7).Format with layout 2006-01-02, modelled with the
current time given as a day count since the epoch. -/
def todayStr (now : Int) : String :=
  formatDate (civilFromDays (now - 7))

/-- The literal text of the Sprintf template (main.go lines 145-147) before
the first %s verb.  Braces of the GraphQL text are written as hex escapes. -/
def qPre : String :=
  "\x7b\n\t\t\"query\": \"query \x7b viewer \x7b zones(filter: \x7b zoneTag: \\\""

/-- The literal template text between the two %s verbs. -/
def qMid : String :=
  "\\\" \x7d) \x7b httpRequests1dGroups( filter: \x7b date_geq: \\\""

/-- The literal template text after the second %s verb. -/
def qPost : String :=
  "\\\" \x7d, limit: 10, orderBy: [date_DESC]) \x7b sum \x7b requests cachedRequests responseStatusMap \x7b edgeResponseStatus requests \x7d \x7d dimensions \x7b date \x7d \x7d \x7d \x7d \x7d\"\n\t\x7d"

/-- fmt.Sprintf of the query template: the first %s receives the zone id, the
second receives the formatted date (main.go line 147). -/
def buildQuery (zoneID today : String) : String :=
  qPre ++ zoneID ++ qMid ++ today ++ qPost

/-- The single request body fetchZoneStats constructs for a zone at a given
now: the template instantiated with zone.ID and the formatted lookback
date. -/
def fetchQuery (zone : Zone) (now : Int) : String :=
  buildQuery zone.id (todayStr now)

/-- s contains p as a contiguous piece. -/
def containsPiece (s p : String) : Prop :=
  ∃ a b : String, s = a ++ (p ++ b)

/-- One observable step of a poll pass: the start of a fetch for a zone, or a
gauge write performed while processing that zone. -/
inductive PassEvent where
  | fetchStart (z : Zone)
  | write (z : Zone) (e : WriteEvent)
  deriving DecidableEq, Repr

/-- The zone an event belongs to. -/
def eventZone : PassEvent → Zone
  | PassEvent.fetchStart z => z
  | PassEvent.write z _ => z

/-- The ordered event trace of one poll pass (main.go lines 222-227): for
each zone in registry order, the fetch starts; a failed fetch contributes no
writes; a successful fetch contributes its writes in loop order; a panic
(empty parsed zones list) kills the process, truncating the trace. -/
def passTrace (outcome : Zone → FetchOutcome) : List Zone → List PassEvent
  | [] => []
  | z :: rest =>
    match outcome z with
    | FetchOutcome.transportError _ => PassEvent.fetchStart z :: passTrace outcome rest
    | FetchOutcome.parseError _ => PassEvent.fetchStart z :: passTrace outcome rest
    | FetchOutcome.ok r =>
      match r.zones with
      | [] => [PassEvent.fetchStart z]
      | z0 :: _ =>
        PassEvent.fetchStart z ::
          ((zoneEvents z.tag z0.httpRequests1dGroups).map (PassEvent.write z)
            ++ passTrace outcome rest)

/-- The gauge writes of a pass trace, in order. -/
def writesOf (es : List PassEvent) : List WriteEvent :=
  es.filterMap (fun e =>
    match e with
    | PassEvent.write _ w => some w
    | PassEvent.fetchStart _ => none)

theorem writesOf_append (a b : List PassEvent) :
    writesOf (a ++ b) = writesOf a ++ writesOf b := by
  simp [writesOf, List.filterMap_append]

theorem writesOf_cons_fetch (z : Zone) (l : List PassEvent) :
    writesOf (PassEvent.fetchStart z :: l) = writesOf l := by
  simp [writesOf, List.filterMap_cons]

theorem writesOf_map_write (z : Zone) (l : List WriteEvent) :
    writesOf (l.map (PassEvent.write z)) = l := by
  induction l with
  | nil => rfl
  | cons e rest ih => simp [writesOf, List.filterMap_cons] at ih ⊢; exact ih

/-- Soundness of the trace: whenever a pass completes without a panic, the
final sink is the initial sink with exactly the writes of the trace applied
in order. -/
theorem pollPass_trace (outcome : Zone → FetchOutcome) (zs : List Zone) (s : Sink) :
    pollPass outcome zs s = none
      ∨ pollPass outcome zs s = some (applyEvents s (writesOf (passTrace outcome zs))) := by
  induction zs generalizing s with
  | nil => exact Or.inr rfl
  | cons z rest ih =>
    cases h : outcome z with
    | transportError m =>
      rcases ih s with h2 | h2
      · exact Or.inl (by simp [pollPass, fetchZoneStatsSink, h, h2])
      · refine Or.inr ?_
        simp [pollPass, fetchZoneStatsSink, h, h2, passTrace, writesOf]
    | parseError m =>
      rcases ih s with h2 | h2
      · exact Or.inl (by simp [pollPass, fetchZoneStatsSink, h, h2])
      · refine Or.inr ?_
        simp [pollPass, fetchZoneStatsSink, h, h2, passTrace, writesOf]
    | ok r =>
      cases hz : r.zones with
      | nil => exact Or.inl (by simp [pollPass, fetchZoneStatsSink, h, processResult, hz])
      | cons z0 zrest =>
        rcases ih (processGroups z.tag z0.httpRequests1dGroups s) with h2 | h2
        · exact Or.inl (by simp [pollPass, fetchZoneStatsSink, h, processResult, hz, h2])
        · refine Or.inr ?_
          have hmain : pollPass outcome (z :: rest) s
              = pollPass outcome rest (processGroups z.tag z0.httpRequests1dGroups s) := by
            simp [pollPass, fetchZoneStatsSink, h, processResult, hz]
          have htr : passTrace outcome (z :: rest)
              = PassEvent.fetchStart z ::
                  ((zoneEvents z.tag z0.httpRequests1dGroups).map (PassEvent.write z)
                    ++ passTrace outcome rest) := by
            simp [passTrace, h, hz]
          rw [hmain, h2, htr]
          have : writesOf (PassEvent.fetchStart z ::
              ((zoneEvents z.tag z0.httpRequests1dGroups).map (PassEvent.write z)
                ++ passTrace outcome rest))
              = zoneEvents z.tag z0.httpRequests1dGroups ++ writesOf (passTrace outcome rest) := by
            rw [writesOf_cons_fetch, writesOf_append, writesOf_map_write]
          rw [this, applyEvents_append, processGroups_eq]

theorem assignAllZones_empty_result (result : List ZoneListEntry) (st : AppState)
    (h : result.length = 0) :
    assignAllZones (ListOutcome.ok result) st = Except.error "failed to get all zones" := by
  simp only [assignAllZones]
  rw [if_pos h]

theorem assignAllZones_no_active (result : List ZoneListEntry) (st : AppState)
    (h : ¬ result.length = 0) (h2 : (zonesCopyOf result).length = 0) :
    assignAllZones (ListOutcome.ok result) st = Except.error "no active zones found" := by
  simp only [assignAllZones]
  rw [if_neg h, if_pos h2]

theorem assignAllZones_success (result : List ZoneListEntry) (st : AppState)
    (h : ¬ result.length = 0) (h2 : ¬ (zonesCopyOf result).length = 0) :
    assignAllZones (ListOutcome.ok result) st
      = Except.ok { st with zones := zonesCopyOf result } := by
  simp only [assignAllZones]
  rw [if_neg h, if_neg h2]

theorem zonesCopyOf_nil_iff (result : List ZoneListEntry) :
    zonesCopyOf result = [] ↔ result.filter isActive = [] := by
  rw [zonesCopyOf_eq]
  constructor
  · intro h
    exact List.map_eq_nil_iff.mp h
  · intro h
    rw [h]
    rfl

/-- Claim C2: for every zone-listing response that parses as the expected
shape, whenever discovery (assignAllZones) yields a registry it consists of
exactly the entries whose status equals the literal active, in response
order, each with Tag taken from the name field and ID from the id field;
zones with any other status are excluded; and discovery fails to yield only
when that filtered list is empty. -/
theorem claim_C2 (result : List ZoneListEntry) (st : AppState) :
    match assignAllZones (ListOutcome.ok result) st with
    | Except.ok st2 =>
        st2.zones = (result.filter isActive).map (fun z => Zone.mk z.name z.id)
    | Except.error _ =>
        (result.filter isActive).map (fun z => Zone.mk z.name z.id) = [] := by
  by_cases h : result.length = 0
  · have hr : result = [] := List.length_eq_zero.mp h
    rw [assignAllZones_empty_result result st h, hr]
    simp
  · by_cases h2 : (zonesCopyOf result).length = 0
    · have hfil : result.filter isActive = [] :=
        (zonesCopyOf_nil_iff result).mp (List.length_eq_zero.mp h2)
      rw [assignAllZones_no_active result st h h2]
      simp [hfil]
    · rw [assignAllZones_success result st h h2]
      simpa using zonesCopyOf_eq result

/-- Claim C4 is refuted by the code: a response body that unmarshals
successfully but whose data.viewer.zones array is empty (for example the
JSON body of an error envelope, or an empty zones list) drives the unguarded
index Zones[0] at main.go line 190 out of bounds; fetchZoneStats panics
instead of returning normally, modelled as processResult evaluating to none,
and the pass that hits it aborts. -/
theorem claim_C4 :
    processResult (Zone.mk "example.com" "abc") (StatsResult.mk []) emptySink = none
  ∧ pollPass (fun _ => FetchOutcome.ok (StatsResult.mk []))
      [Zone.mk "example.com" "abc", Zone.mk "b.example" "def"] emptySink = none :=
  ⟨rfl, rfl⟩

/-- Claim C5: a transport failure or a parse failure of the stats fetch for
the first zone of a pass leaves the sink untouched for that zone and the
rest of the pass proceeds exactly as a pass over the remaining zones: the
failed zone is skipped, later zones are still fetched and written, and the
registry list (an input the loop never modifies) is intact for the next
pass. -/
theorem claim_C5 (outcome : Zone → FetchOutcome) (a : Zone) (rest : List Zone) (s : Sink)
    (h : (∃ m, outcome a = FetchOutcome.transportError m)
      ∨ (∃ m, outcome a = FetchOutcome.parseError m)) :
    pollPass outcome (a :: rest) s = pollPass outcome rest s := by
  rcases h with ⟨m, hm⟩ | ⟨m, hm⟩ <;> simp [pollPass, fetchZoneStatsSink, hm]

/-- Witness for claim C5 at a concrete failing first zone and a concrete
second zone. -/
theorem claim_C5_witness :
    pollPass (fun _ => FetchOutcome.transportError "connection refused")
      [Zone.mk "a.example" "zoneA", Zone.mk "b.example" "zoneB"] emptySink
    = pollPass (fun _ => FetchOutcome.transportError "connection refused")
      [Zone.mk "b.example" "zoneB"] emptySink :=
  claim_C5 (fun _ => FetchOutcome.transportError "connection refused")
    (Zone.mk "a.example" "zoneA") [Zone.mk "b.example" "zoneB"] emptySink
    (Or.inl ⟨"connection refused", rfl⟩)

/-- Claim C6: assignAllZones returns an error exactly when the zone-listing
HTTP call fails, or the body fails to parse, or the list filtered to active
status is empty (the source also errors on an empty result array, but then
the active-filtered list is empty too, so the equivalence holds); in every
other case it succeeds. -/
theorem claim_C6 (msg : String) (result : List ZoneListEntry) (st : AppState) :
    discoverySucceeds (assignAllZones (ListOutcome.transportError msg) st) = false
  ∧ discoverySucceeds (assignAllZones ListOutcome.parseError st) = false
  ∧ (discoverySucceeds (assignAllZones (ListOutcome.ok result) st) = true
      ↔ result.filter isActive ≠ []) := by
  refine ⟨rfl, rfl, ?_⟩
  by_cases h : result.length = 0
  · have hr : result = [] := List.length_eq_zero.mp h
    subst hr
    rw [assignAllZones_empty_result [] st rfl]
    simp [discoverySucceeds, isActive]
  · by_cases h2 : (zonesCopyOf result).length = 0
    · have hfil : result.filter isActive = [] :=
        (zonesCopyOf_nil_iff result).mp (List.length_eq_zero.mp h2)
      rw [assignAllZones_no_active result st h h2]
      simp [discoverySucceeds, hfil]
    · have hfil : result.filter isActive ≠ [] := by
        intro hc
        exact h2 (by rw [(zonesCopyOf_nil_iff result).mpr hc]; rfl)
      rw [assignAllZones_success result st h h2]
      simp [discoverySucceeds, hfil]

/-- Claim C7: the registry is never assigned an empty list: on any
assignAllZones error (including the zero-active-zones case) the registry
keeps its previous contents, and every successful call replaces it wholesale
with a non-empty list. -/
theorem claim_C7 (outcome : ListOutcome) (st : AppState) :
    match assignAllZones outcome st with
    | Except.error _ => registryAfter outcome st = st
    | Except.ok st2 => registryAfter outcome st = st2 ∧ st2.zones ≠ [] := by
  cases outcome with
  | transportError m => simp [assignAllZones, registryAfter]
  | parseError => simp [assignAllZones, registryAfter]
  | ok result =>
    by_cases h : result.length = 0
    · rw [assignAllZones_empty_result result st h]
      simp [registryAfter, assignAllZones_empty_result result st h]
    · by_cases h2 : (zonesCopyOf result).length = 0
      · rw [assignAllZones_no_active result st h h2]
        simp [registryAfter, assignAllZones_no_active result st h h2]
      · have hne : zonesCopyOf result ≠ [] := by
          intro hc
          exact h2 (by rw [hc]; rfl)
        rw [assignAllZones_success result st h h2]
        simp [registryAfter, assignAllZones_success result st h h2, hne]

/-- Claim C8: gauge writes have last-write-wins overwrite semantics for each
gauge family shape used by the program: writing v1 then v2 at the same label
tuple yields the same table as writing v2 alone, and the tuple then holds
exactly v2 (no accumulation). -/
theorem claim_C8 (g2 : GaugeTable (String × String))
    (g3 : GaugeTable (String × String × String))
    (k2 : String × String) (k3 : String × String × String) (v1 v2 : Int) :
    setGauge (setGauge g2 k2 v1) k2 v2 = setGauge g2 k2 v2
  ∧ setGauge (setGauge g3 k3 v1) k3 v2 = setGauge g3 k3 v2
  ∧ setGauge (setGauge g2 k2 v1) k2 v2 k2 = some v2
  ∧ setGauge (setGauge g3 k3 v1) k3 v2 k3 = some v2 := by
  refine ⟨?_, ?_, by simp [setGauge], by simp [setGauge]⟩
  · funext x
    by_cases hx : x = k2 <;> simp [setGauge, hx]
  · funext x
    by_cases hx : x = k3 <;> simp [setGauge, hx]

theorem reqWritesOf_append (a b : List WriteEvent) :
    reqWritesOf (a ++ b) = reqWritesOf a ++ reqWritesOf b := by
  induction a with
  | nil => rfl
  | cons e rest ih => cases e <;> simp [reqWritesOf, ih]

theorem cachedWritesOf_append (a b : List WriteEvent) :
    cachedWritesOf (a ++ b) = cachedWritesOf a ++ cachedWritesOf b := by
  induction a with
  | nil => rfl
  | cons e rest ih => cases e <;> simp [cachedWritesOf, ih]

theorem statusWritesOf_append (a b : List WriteEvent) :
    statusWritesOf (a ++ b) = statusWritesOf a ++ statusWritesOf b := by
  induction a with
  | nil => rfl
  | cons e rest ih => cases e <;> simp [statusWritesOf, ih]

theorem reqWritesOf_statusEvents (tag date : String) (l : List StatusMapEntry) :
    reqWritesOf (statusEvents tag date l) = [] := by
  induction l with
  | nil => rfl
  | cons st rest ih =>
    by_cases h : st.edgeResponseStatus = "" <;>
      simp [statusEvents, List.filterMap_cons, h, reqWritesOf] <;>
      simpa [statusEvents] using ih

theorem cachedWritesOf_statusEvents (tag date : String) (l : List StatusMapEntry) :
    cachedWritesOf (statusEvents tag date l) = [] := by
  induction l with
  | nil => rfl
  | cons st rest ih =>
    by_cases h : st.edgeResponseStatus = "" <;>
      simp [statusEvents, List.filterMap_cons, h, cachedWritesOf] <;>
      simpa [statusEvents] using ih

theorem reqWritesOf_zoneEvents (tag : String) (groups : List HttpGroup) :
    reqWritesOf (zoneEvents tag groups)
      = groups.map (fun g => (tag, g.dimensions.date, g.sum.requests)) := by
  induction groups with
  | nil => rfl
  | cons g rest ih =>
    simp only [zoneEvents, List.flatMap_cons] at ih ⊢
    rw [reqWritesOf_append, ih]
    simp [groupEvents, reqWritesOf, reqWritesOf_statusEvents]

theorem cachedWritesOf_zoneEvents (tag : String) (groups : List HttpGroup) :
    cachedWritesOf (zoneEvents tag groups)
      = groups.map (fun g => (tag, g.dimensions.date, g.sum.cachedRequests)) := by
  induction groups with
  | nil => rfl
  | cons g rest ih =>
    simp only [zoneEvents, List.flatMap_cons] at ih ⊢
    rw [cachedWritesOf_append, ih]
    simp [groupEvents, cachedWritesOf, cachedWritesOf_statusEvents]

/-- Claim C1: for every stats response whose parsed zones array is
non-empty, the K daily groups of the first zone produce exactly one
reqMetric write and exactly one cachedMetric write per group, in group
order, keyed by the zone tag and the group date, with values equal to the
requests respectively cachedRequests fields of the group; and these are the
exact writes fetchZoneStats applies to the sink. -/
theorem claim_C1 (zone : Zone) (z0 : ViewerZone) (zrest : List ViewerZone) (s : Sink) :
    reqWritesOf (zoneEvents zone.tag z0.httpRequests1dGroups)
      = z0.httpRequests1dGroups.map (fun g => (zone.tag, g.dimensions.date, g.sum.requests))
  ∧ cachedWritesOf (zoneEvents zone.tag z0.httpRequests1dGroups)
      = z0.httpRequests1dGroups.map (fun g => (zone.tag, g.dimensions.date, g.sum.cachedRequests))
  ∧ processResult zone (StatsResult.mk (z0 :: zrest)) s
      = some (applyEvents s (zoneEvents zone.tag z0.httpRequests1dGroups)) := by
  refine ⟨reqWritesOf_zoneEvents zone.tag z0.httpRequests1dGroups,
    cachedWritesOf_zoneEvents zone.tag z0.httpRequests1dGroups, ?_⟩
  simp [processResult, processGroups_eq]

theorem statusWritesOf_statusEvents (tag date : String) (l : List StatusMapEntry) :
    statusWritesOf (statusEvents tag date l)
      = l.filterMap (fun st =>
          if st.edgeResponseStatus = "" then none
          else some (tag, date, st.edgeResponseStatus, st.requests)) := by
  induction l with
  | nil => rfl
  | cons st rest ih =>
    by_cases h : st.edgeResponseStatus = "" <;>
      simp [statusEvents, List.filterMap_cons, h, statusWritesOf] <;>
      simpa [statusEvents] using ih

theorem filter_empty_statusEvents (tag date : String) (l : List StatusMapEntry) :
    (statusEvents tag date l).filter isEmptyStatusWrite = [] := by
  induction l with
  | nil => rfl
  | cons st rest ih =>
    by_cases h : st.edgeResponseStatus = "" <;>
      simp [statusEvents, List.filterMap_cons, h, List.filter_cons, isEmptyStatusWrite] <;>
      simpa [statusEvents] using ih

/-- Claim C3: no byStatusMetric write with an empty status-code label ever
occurs among the writes of a daily-group list, and the byStatusMetric writes
are exactly the non-empty-code entries of each responseStatusMap, keyed by
zone tag, group date and status code, with value equal to the requests field
of the entry. -/
theorem claim_C3 (tag : String) (groups : List HttpGroup) :
    (zoneEvents tag groups).filter isEmptyStatusWrite = []
  ∧ statusWritesOf (zoneEvents tag groups)
      = groups.flatMap (fun g =>
          g.sum.responseStatusMap.filterMap (fun st =>
            if st.edgeResponseStatus = "" then none
            else some (tag, g.dimensions.date, st.edgeResponseStatus, st.requests))) := by
  constructor
  · induction groups with
    | nil => rfl
    | cons g rest ih =>
      simp only [zoneEvents, List.flatMap_cons] at ih ⊢
      rw [List.filter_append, ih]
      simp [groupEvents, List.filter_cons, isEmptyStatusWrite, filter_empty_statusEvents]
  · induction groups with
    | nil => rfl
    | cons g rest ih =>
      simp only [zoneEvents, List.flatMap_cons] at ih ⊢
      rw [statusWritesOf_append, ih]
      simp [groupEvents, statusWritesOf, statusWritesOf_statusEvents]

theorem containsPiece_of_eq (s a p b : String) (h : s = a ++ (p ++ b)) :
    containsPiece s p :=
  ⟨a, b, h⟩

theorem todayStr_sample : todayStr 19730 = "2024-01-01" := by decide

theorem todayStr_sample2 : todayStr 19723 = "2023-12-25" := by decide

/-- Claim C9: the single request body fetchZoneStats builds for a zone
filters the zones field on the opaque zone id, asks for daily groups with
date_geq equal to the current date minus the 7-day lookback rendered as
YYYY-MM-DD, limits the groups to 10 ordered by date descending, and selects
per group the total request count, cached request count, per-status
breakdown, and the date dimension. -/
theorem claim_C9 (zone : Zone) (now : Int) :
    containsPiece (fetchQuery zone now)
      ("zones(filter: \x7b zoneTag: \\\"" ++ zone.id ++ "\\\" \x7d)")
  ∧ containsPiece (fetchQuery zone now)
      ("date_geq: \\\"" ++ formatDate (civilFromDays (now - 7)) ++ "\\\"")
  ∧ containsPiece (fetchQuery zone now) "limit: 10, orderBy: [date_DESC]"
  ∧ containsPiece (fetchQuery zone now)
      "sum \x7b requests cachedRequests responseStatusMap \x7b edgeResponseStatus requests \x7d \x7d dimensions \x7b date \x7d" := by
  have hpre : qPre = "\x7b\n\t\t\"query\": \"query \x7b viewer \x7b "
      ++ "zones(filter: \x7b zoneTag: \\\"" := rfl
  have hmid : qMid = "\\\" \x7d)"
      ++ " \x7b httpRequests1dGroups( filter: \x7b date_geq: \\\"" := rfl
  have hmid2 : qMid = "\\\" \x7d) \x7b httpRequests1dGroups( filter: \x7b "
      ++ "date_geq: \\\"" := rfl
  have hpost : qPost = "\\\""
      ++ " \x7d, limit: 10, orderBy: [date_DESC]) \x7b sum \x7b requests cachedRequests responseStatusMap \x7b edgeResponseStatus requests \x7d \x7d dimensions \x7b date \x7d \x7d \x7d \x7d \x7d\"\n\t\x7d" := rfl
  have hpost2 : qPost = "\\\" \x7d, "
      ++ ("limit: 10, orderBy: [date_DESC]"
        ++ ") \x7b sum \x7b requests cachedRequests responseStatusMap \x7b edgeResponseStatus requests \x7d \x7d dimensions \x7b date \x7d \x7d \x7d \x7d \x7d\"\n\t\x7d") := rfl
  have hpost3 : qPost = "\\\" \x7d, limit: 10, orderBy: [date_DESC]) \x7b "
      ++ ("sum \x7b requests cachedRequests responseStatusMap \x7b edgeResponseStatus requests \x7d \x7d dimensions \x7b date \x7d"
        ++ " \x7d \x7d \x7d \x7d\"\n\t\x7d") := rfl
  refine ⟨?_, ?_, ?_, ?_⟩
  · refine containsPiece_of_eq _ "\x7b\n\t\t\"query\": \"query \x7b viewer \x7b "
      _ (" \x7b httpRequests1dGroups( filter: \x7b date_geq: \\\"" ++ (todayStr now ++ qPost)) ?_
    rw [fetchQuery, buildQuery, hpre, hmid]
    simp only [String.append_assoc]
  · refine containsPiece_of_eq _
      (qPre ++ (zone.id ++ "\\\" \x7d) \x7b httpRequests1dGroups( filter: \x7b "))
      _ (" \x7d, limit: 10, orderBy: [date_DESC]) \x7b sum \x7b requests cachedRequests responseStatusMap \x7b edgeResponseStatus requests \x7d \x7d dimensions \x7b date \x7d \x7d \x7d \x7d \x7d\"\n\t\x7d") ?_
    rw [fetchQuery, buildQuery, hmid2, hpost]
    simp only [todayStr, String.append_assoc]
  · refine containsPiece_of_eq _
      (qPre ++ (zone.id ++ (qMid ++ (todayStr now ++ "\\\" \x7d, "))))
      _ (") \x7b sum \x7b requests cachedRequests responseStatusMap \x7b edgeResponseStatus requests \x7d \x7d dimensions \x7b date \x7d \x7d \x7d \x7d \x7d\"\n\t\x7d") ?_
    rw [fetchQuery, buildQuery]
    conv_lhs => rw [hpost2]
    simp [String.append_assoc]
  · refine containsPiece_of_eq _
      (qPre ++ (zone.id ++ (qMid ++ (todayStr now ++ "\\\" \x7d, limit: 10, orderBy: [date_DESC]) \x7b "))))
      _ (" \x7d \x7d \x7d \x7d\"\n\t\x7d") ?_
    rw [fetchQuery, buildQuery]
    conv_lhs => rw [hpost3]
    simp [String.append_assoc]

theorem passTrace_mem (outcome : Zone → FetchOutcome) (zs : List Zone) :
    ∀ e ∈ passTrace outcome zs, eventZone e ∈ zs := by
  induction zs with
  | nil => intro e he; simp [passTrace] at he
  | cons z rest ih =>
    intro e he
    cases h : outcome z with
    | transportError m =>
      simp only [passTrace, h] at he
      rcases List.mem_cons.mp he with he2 | he2
      · subst he2; simp [eventZone]
      · exact List.mem_cons_of_mem z (ih e he2)
    | parseError m =>
      simp only [passTrace, h] at he
      rcases List.mem_cons.mp he with he2 | he2
      · subst he2; simp [eventZone]
      · exact List.mem_cons_of_mem z (ih e he2)
    | ok r =>
      cases hz : r.zones with
      | nil =>
        simp only [passTrace, h, hz] at he
        rcases List.mem_cons.mp he with he2 | he2
        · subst he2; simp [eventZone]
        · simp at he2
      | cons z0 zr =>
        simp only [passTrace, h, hz] at he
        rcases List.mem_cons.mp he with he2 | he2
        · subst he2; simp [eventZone]
        · rcases List.mem_append.mp he2 with he3 | he3
          · rcases List.mem_map.mp he3 with ⟨w, _, hw⟩
            subst hw; simp [eventZone]
          · exact List.mem_cons_of_mem z (ih e he3)

theorem passTrace_split (outcome : Zone → FetchOutcome) (xs ys : List Zone) :
    passTrace outcome (xs ++ ys) = passTrace outcome xs ++ passTrace outcome ys
      ∨ passTrace outcome (xs ++ ys) = passTrace outcome xs := by
  induction xs with
  | nil => exact Or.inl (by simp [passTrace])
  | cons z rest ih =>
    cases h : outcome z with
    | transportError m =>
      rcases ih with h2 | h2
      · exact Or.inl (by simp [passTrace, h, h2])
      · exact Or.inr (by simp [passTrace, h, h2])
    | parseError m =>
      rcases ih with h2 | h2
      · exact Or.inl (by simp [passTrace, h, h2])
      · exact Or.inr (by simp [passTrace, h, h2])
    | ok r =>
      cases hz : r.zones with
      | nil => exact Or.inr (by simp [passTrace, h, hz])
      | cons z0 zr =>
        rcases ih with h2 | h2
        · exact Or.inl (by simp [passTrace, h, hz, h2])
        · exact Or.inr (by simp [passTrace, h, hz, h2])

/-- Claim C10: within one pass zones are processed strictly sequentially in
registry order: the trace of a pass over a prefix followed by a suffix is
the trace of the prefix followed by the trace of the suffix (or is truncated
at a panic inside the prefix), and every event of the trace over the suffix
belongs to a zone of the suffix — so all writes of an earlier zone precede
the fetch and the writes of every later zone, and no write for a later zone
precedes a write for an earlier one. -/
theorem claim_C10 (outcome : Zone → FetchOutcome) (xs ys : List Zone) :
    (passTrace outcome (xs ++ ys) = passTrace outcome xs ++ passTrace outcome ys
      ∨ passTrace outcome (xs ++ ys) = passTrace outcome xs)
  ∧ (passTrace outcome ys).all (fun e => decide (eventZone e ∈ ys)) = true := by
  refine ⟨passTrace_split outcome xs ys, ?_⟩
  rw [List.all_eq_true]
  intro e he
  exact decide_eq_true (passTrace_mem outcome ys e he)

end CFMetrics
